import Mathlib

/-!
Verification of the plugin discovery, tool-schema synthesis and
subprocess-execution engine of `src/smcp.py` (Sanctum Letta MCP server).

The Python code is shallowly embedded: pure helpers become Lean functions
over `List Char` / `String`; the effects of one call (subprocess spawns,
metric counter increments) are made explicit as data returned by the
embedded functions; the behaviour of the spawned subprocess itself is an
input (`SpawnOutcome` / `SubprocRun`), since the plugin executable is an
external collaborator.  `json.loads` of the Python standard library is
embedded as an executable JSON parser over characters (integral numbers
only; a numeric literal with a fractional part or exponent is modelled as
a parse failure, which no claim exercises).

All recursion is structural (on character lists or on an explicit fuel
counter), so every definition evaluates inside the kernel and concrete
witnesses go through by `rfl` / `decide`.
-/

/- ## Python string primitives (embedded semantics of `str` methods used by smcp.py) -/

/-- Whitespace removed by Python's default `str.strip()`:
space, tab, newline, carriage return, vertical tab, form feed. -/
def pyIsSpace (c : Char) : Bool :=
  c = ' ' || c = '\t' || c = '\n' || c = '\r' || c = Char.ofNat 11 || c = Char.ofNat 12

/-- Python `str.strip()` on a character list: drop whitespace from both ends. -/
def pyStripChars (l : List Char) : List Char :=
  ((l.dropWhile pyIsSpace).reverse.dropWhile pyIsSpace).reverse

/-- Python `s.strip()`. -/
def pyStrip (s : String) : String := String.mk (pyStripChars s.data)

/-- First occurrence split: `findSplit needle hay = some (before, after)` when
`needle` occurs in `hay` (`before` is the part before the first occurrence and
`after` the part following it), `none` otherwise.  Only called with a
non-empty needle (Python's `in` / `split` on `"__"`, `"."`, etc.). -/
def findSplit (needle : List Char) : List Char → Option (List Char × List Char)
  | [] => none
  | c :: rest =>
    if needle.isPrefixOf (c :: rest) then some ([], (c :: rest).drop needle.length)
    else
      match findSplit needle rest with
      | some (p, s) => some (c :: p, s)
      | none => none

/-- Python `pat in s` (substring containment, for a non-empty `pat`). -/
def strContainsSub (s pat : String) : Bool := (findSplit pat.data s.data).isSome

/-- Python `s.split(delim, 1)` when `delim` occurs in `s`: the part before the
first occurrence and the rest after it.  `none` when `delim` does not occur. -/
def pySplitOnce (s delim : String) : Option (String × String) :=
  match findSplit delim.data s.data with
  | some (p, r) => some (String.mk p, String.mk r)
  | none => none

/-- Splitting a character list on one separator character, keeping empty
groups, as Python `s.split('\n')` does. -/
def splitCharList (sep : Char) : List Char → List (List Char)
  | [] => [[]]
  | x :: xs =>
    if x = sep then [] :: splitCharList sep xs
    else
      match splitCharList sep xs with
      | [] => [[x]]
      | g :: gs => (x :: g) :: gs

/-- Python `s.split('\n')`. -/
def pySplitLines (s : String) : List String := (splitCharList '\n' s.data).map String.mk

/-- Helper for Python whitespace `str.split()`: accumulate the current word
(in reverse) while scanning. -/
def wordsAux (acc : List Char) : List Char → List (List Char)
  | [] => if acc.isEmpty then [] else [acc.reverse]
  | c :: cs =>
    if pyIsSpace c then
      if acc.isEmpty then wordsAux [] cs else acc.reverse :: wordsAux [] cs
    else wordsAux (c :: acc) cs

/-- Python `s.split()` with no argument: split on whitespace runs, no empty parts. -/
def pySplitWs (s : String) : List String := (wordsAux [] s.data).map String.mk

/-- Python `s.startswith(pat)`. -/
def pyStartsWith (s pat : String) : Bool := pat.data.isPrefixOf s.data

/-- Python `s.replace(a, b)` for single-character `a`, `b`
(used by smcp.py as `key.replace('_', '-')`). -/
def pyReplaceChar (s : String) (a b : Char) : String :=
  String.mk (s.data.map fun c => if c = a then b else c)

/-- Python `a or b` on strings: `b` when `a` is empty (falsy), else `a`. -/
def pyOr (a b : String) : String := if a = "" then b else a

/- ## JSON values (the result of Python `json.loads` on plugin output)

A mutual inductive is used instead of nesting `List JVal` inside the type so
that all recursion over values is structural and kernel-reducible. -/

mutual
/-- A parsed JSON value: the Python objects `json.loads` produces
(`None`, `bool`, `int`, `str`, `list`, `dict`).  Numbers are modelled as
integers; see `json_loads`. -/
inductive JVal where
  | jnull
  | jbool (b : Bool)
  | jnum (n : Int)
  | jstr (s : String)
  | jarr (elems : JItems)
  | jobj (members : JFields)
/-- A list of JSON values (a Python `list`). -/
inductive JItems where
  | nil
  | cons (hd : JVal) (tl : JItems)
/-- The key/value members of a JSON object (a Python `dict`, insertion ordered,
keys unique). -/
inductive JFields where
  | nil
  | cons (key : String) (val : JVal) (tl : JFields)
end

/-- Dictionary lookup `d[k]` / `k in d` on parsed JSON object members. -/
def JFields.lookupKey : JFields → String → Option JVal
  | .nil, _ => none
  | .cons k v tl, key => if k = key then some v else JFields.lookupKey tl key

/-- Python `d[k] = v` on a dict: replace the value in place if the key exists,
else append (insertion order preserved). -/
def JFields.setKey : JFields → String → JVal → JFields
  | .nil, k, v => .cons k v .nil
  | .cons k0 v0 tl, k, v =>
    if k0 = k then .cons k0 v tl else .cons k0 v0 (JFields.setKey tl k v)

/-- Python `x in l` for a string `x` and a parsed JSON list `l`: membership by
equality, and a Python `str` equals no non-`str` JSON value. -/
def JItems.containsStr (x : String) : JItems → Bool
  | .nil => false
  | .cons (.jstr t) tl => t = x || JItems.containsStr x tl
  | .cons _ tl => JItems.containsStr x tl

/-- Conversion of a parsed JSON list to a Lean list of its elements. -/
def JItems.toList : JItems → List JVal
  | .nil => []
  | .cons v tl => v :: JItems.toList tl

/-- Conversion of a Lean association list (keys assumed distinct) to JSON
object members. -/
def toFields : List (String × JVal) → JFields
  | [] => .nil
  | (k, v) :: rest => .cons k v (toFields rest)

/-- Conversion of a Lean list to JSON list items. -/
def toItems : List JVal → JItems
  | [] => .nil
  | v :: rest => .cons v (toItems rest)

mutual
/-- Python `str()` of a value `json.loads` produced, as an f-string interpolates
it: a `str` stays itself, scalars print Python style, containers print as their
`repr`.  (The `repr` of a string is modelled without escaping of quotes inside
it, which no claim exercises.) -/
def pyStr : JVal → String
  | .jnull => "None"
  | .jbool true => "True"
  | .jbool false => "False"
  | .jnum n => toString n
  | .jstr s => s
  | .jarr l => "[" ++ String.intercalate ", " (pyReprItems l) ++ "]"
  | .jobj m => "\x7b" ++ String.intercalate ", " (pyReprFields m) ++ "\x7d"
/-- Python `repr()` of a value `json.loads` produced. -/
def pyRepr : JVal → String
  | .jnull => "None"
  | .jbool true => "True"
  | .jbool false => "False"
  | .jnum n => toString n
  | .jstr s => "'" ++ s ++ "'"
  | .jarr l => "[" ++ String.intercalate ", " (pyReprItems l) ++ "]"
  | .jobj m => "\x7b" ++ String.intercalate ", " (pyReprFields m) ++ "\x7d"
/-- The element reprs of a JSON list. -/
def pyReprItems : JItems → List String
  | .nil => []
  | .cons v tl => pyRepr v :: pyReprItems tl
/-- The `'key': value` member reprs of a JSON object. -/
def pyReprFields : JFields → List String
  | .nil => []
  | .cons k v tl => ("'" ++ k ++ "': " ++ pyRepr v) :: pyReprFields tl
end

/- ## JSON parser (embedding of `json.loads`) -/

/-- The whitespace `json.loads` skips between tokens. -/
def skipJWs (cs : List Char) : List Char :=
  cs.dropWhile fun c => c = ' ' || c = '\t' || c = '\n' || c = '\r'

/-- Parse the body of a JSON string after the opening quote, handling the
common escapes (`\u` hex escapes are not modelled: they make the parse fail,
which no claim exercises). -/
def parseStringBody (acc : List Char) : List Char → Option (String × List Char)
  | [] => none
  | c :: rest =>
    if c = '"' then some (String.mk acc.reverse, rest)
    else if c = '\\' then
      match rest with
      | [] => none
      | e :: rest2 =>
        if e = '"' then parseStringBody ('"' :: acc) rest2
        else if e = '\\' then parseStringBody ('\\' :: acc) rest2
        else if e = '/' then parseStringBody ('/' :: acc) rest2
        else if e = 'n' then parseStringBody ('\n' :: acc) rest2
        else if e = 't' then parseStringBody ('\t' :: acc) rest2
        else if e = 'r' then parseStringBody ('\r' :: acc) rest2
        else if e = 'b' then parseStringBody (Char.ofNat 8 :: acc) rest2
        else if e = 'f' then parseStringBody (Char.ofNat 12 :: acc) rest2
        else none
    else parseStringBody (c :: acc) rest

/-- Accumulate decimal digits into a natural number. -/
def digitsAux (acc : Nat) : List Char → Nat × List Char
  | [] => (acc, [])
  | c :: cs => if c.isDigit then digitsAux (acc * 10 + (c.toNat - 48)) cs else (acc, c :: cs)

/-- Parse an optionally negated decimal integer. -/
def parseIntNum : List Char → Option (Int × List Char)
  | [] => none
  | c :: cs =>
    if c = '-' then
      match cs with
      | d :: ds =>
        if d.isDigit then
          match digitsAux 0 (d :: ds) with
          | (n, rest) => some (-(n : Int), rest)
        else none
      | [] => none
    else if c.isDigit then
      match digitsAux 0 (c :: cs) with
      | (n, rest) => some ((n : Int), rest)
    else none

mutual
/-- Fuelled recursive-descent parse of one JSON value; the fuel only bounds
the nesting of recursive calls and `json_loads` supplies more than any input
of its length can use. -/
def parseVal : Nat → List Char → Option (JVal × List Char)
  | 0, _ => none
  | fuel + 1, cs =>
    match skipJWs cs with
    | [] => none
    | c :: rest =>
      if c = '"' then
        match parseStringBody [] rest with
        | some (s, r) => some (.jstr s, r)
        | none => none
      else if c = Char.ofNat 123 then parseObjBody fuel rest
      else if c = '[' then parseArrBody fuel rest
      else if c = 't' then
        match rest with
        | 'r' :: 'u' :: 'e' :: r => some (.jbool true, r)
        | _ => none
      else if c = 'f' then
        match rest with
        | 'a' :: 'l' :: 's' :: 'e' :: r => some (.jbool false, r)
        | _ => none
      else if c = 'n' then
        match rest with
        | 'u' :: 'l' :: 'l' :: r => some (.jnull, r)
        | _ => none
      else
        match parseIntNum (c :: rest) with
        | some (n, r) =>
          match r with
          | d :: _ => if d = '.' || d = 'e' || d = 'E' then none else some (.jnum n, r)
          | [] => some (.jnum n, [])
        | none => none
/-- Parse a JSON array after its opening bracket. -/
def parseArrBody : Nat → List Char → Option (JVal × List Char)
  | 0, _ => none
  | fuel + 1, cs =>
    match skipJWs cs with
    | ']' :: r => some (.jarr .nil, r)
    | cs2 =>
      match parseVal fuel cs2 with
      | some (v, r) =>
        match parseArrRest fuel r with
        | some (items, r2) => some (.jarr (.cons v items), r2)
        | none => none
      | none => none
/-- Parse the `, value` continuations and closing bracket of a JSON array. -/
def parseArrRest : Nat → List Char → Option (JItems × List Char)
  | 0, _ => none
  | fuel + 1, cs =>
    match skipJWs cs with
    | ']' :: r => some (.nil, r)
    | ',' :: r =>
      match parseVal fuel r with
      | some (v, r2) =>
        match parseArrRest fuel r2 with
        | some (items, r3) => some (.cons v items, r3)
        | none => none
      | none => none
    | _ => none
/-- Parse one `"key": value` member of a JSON object. -/
def parsePair : Nat → List Char → Option ((String × JVal) × List Char)
  | 0, _ => none
  | fuel + 1, cs =>
    match skipJWs cs with
    | '"' :: r =>
      match parseStringBody [] r with
      | some (k, r2) =>
        match skipJWs r2 with
        | ':' :: r3 =>
          match parseVal fuel r3 with
          | some (v, r4) => some ((k, v), r4)
          | none => none
        | _ => none
      | none => none
    | _ => none
/-- Parse a JSON object after its opening brace, collecting its members in
order; duplicate keys overwrite as Python dict construction does. -/
def parseObjBody : Nat → List Char → Option (JVal × List Char)
  | 0, _ => none
  | fuel + 1, cs =>
    match skipJWs cs with
    | c :: r =>
      if c = Char.ofNat 125 then some (.jobj .nil, r)
      else
        match parsePair fuel (c :: r) with
        | some (p, r2) =>
          match parseObjRest fuel r2 with
          | some (ps, r3) =>
            some (.jobj ((p :: ps).foldl (fun f kv => JFields.setKey f kv.1 kv.2) .nil), r3)
          | none => none
        | none => none
    | [] => none
/-- Parse the `, "key": value` continuations and closing brace of a JSON object. -/
def parseObjRest : Nat → List Char → Option (List (String × JVal) × List Char)
  | 0, _ => none
  | fuel + 1, cs =>
    match skipJWs cs with
    | c :: r =>
      if c = Char.ofNat 125 then some ([], r)
      else if c = ',' then
        match parsePair fuel r with
        | some (p, r2) =>
          match parseObjRest fuel r2 with
          | some (ps, r3) => some (p :: ps, r3)
          | none => none
        | none => none
      else none
    | [] => none
end

/-- Embedding of Python `json.loads` on the strings smcp.py feeds it:
parse one value, demand nothing but whitespace after it, fail (Python: raise
`json.JSONDecodeError`, which the call sites catch) otherwise.  The fuel
`4 * (length + 1)` exceeds what parsing a string of that length can consume,
since every parser call chain of length four consumes at least one character. -/
def json_loads (s : String) : Option JVal :=
  match parseVal (4 * (s.data.length + 1)) s.data with
  | some (v, rest) => if skipJWs rest = [] then some v else none
  | none => none

/- ## Embedding of src/smcp.py -/

/-- A Python value an MCP tool call passes as an argument (the `arguments`
dict values smcp.py marshals; `isinstance(value, bool)` is checked before the
generic branch, so booleans are their own constructor). -/
inductive PyVal where
  | pybool (b : Bool)
  | pystr (s : String)
  | pyint (n : Int)
deriving Repr, DecidableEq

/-- Python `str(value)` on an argument value (the generic marshaling branch). -/
def pyValStr : PyVal → String
  | .pybool true => "True"
  | .pybool false => "False"
  | .pystr s => s
  | .pyint n => toString n

/-- Stands for Python `sys.executable`, the interpreter path prepended to every
spawned command line (an opaque constant of the host). -/
def pythonExecutable : String := "python3"

/-- Argument marshaling of `execute_plugin_tool` (src/smcp.py lines 263-272)
for one key/value pair: the key's underscores become hyphens, boolean `True`
contributes the bare flag, boolean `False` contributes nothing, any other
value contributes the flag and the stringified value. -/
def marshalArg (key : String) (value : PyVal) : List String :=
  let argName := pyReplaceChar key '_' '-'
  match value with
  | .pybool true => ["--" ++ argName]
  | .pybool false => []
  | _ => ["--" ++ argName, pyValStr value]

/-- The marshaled tokens of the whole `arguments` dict, in insertion order
(Python dict iteration order). -/
def buildCliArgs (arguments : List (String × PyVal)) : List String :=
  arguments.flatMap fun kv => marshalArg kv.1 kv.2

/-- Lookup in the plugin registry (a Python dict with unique keys; the stored
value of interest is `plugin_info["path"]`, the only field `execute_plugin_tool`
reads — the registry entry's `"commands"` dict is created empty by
`discover_plugins` and never consulted). -/
def dictLookup : List (String × String) → String → Option String
  | [], _ => none
  | (k, v) :: rest, key => if k = key then some v else dictLookup rest key

/-- Tool-name parsing of `execute_plugin_tool` (src/smcp.py lines 243-252):
split on the first `"__"` when present (the inner `len(parts) != 2` guard is
unreachable, since `split('__', 1)` yields exactly two parts whenever `'__'`
occurs), else on the first `"."` (legacy format), else fail. -/
def parseToolName (toolName : String) : Option (String × String) :=
  if strContainsSub toolName "__" then pySplitOnce toolName "__"
  else if strContainsSub toolName "." then pySplitOnce toolName "."
  else none

/-- What the spawned tool subprocess does, as seen by `execute_plugin_tool`:
either the concurrent stream drain plus `process.wait()` finish within the
300-second deadline with an exit status and the drained stream contents, or
the deadline expires with some partial output sitting in the pipe buffers
(`partialStdout = none` models the salvage `read()` itself timing out). -/
inductive SpawnOutcome where
  | timedOut (partialStdout : Option String) (bufferedStderr : String)
  | completed (returncode : Int) (stdout : String) (stderrData : String)

/-- The observable effect of one `execute_plugin_tool` call: the returned
result string, the command lines spawned (empty when no subprocess was
spawned), and the increments applied to `metrics["tool_calls_success"]` and
`metrics["tool_calls_error"]`. -/
structure ExecEffect where
  result : String
  spawned : List (List String)
  dSuccess : Nat
  dError : Nat

/-- Error-message extraction of the non-zero-exit branch when the stripped
stdout parsed as JSON (src/smcp.py lines 381-388).  Python's `"error" in
error_data` succeeds only on containers and strings; on a dict with an
`"error"` key the value is taken (stringified by the final f-string), on a
dict without one the stripped stdout is used; every other shape either makes
`in` raise `TypeError` (numbers, booleans, `None`) or makes the subsequent
`error_data["error"]` indexing raise (lists containing `"error"`, strings
containing it), and the bare `except:` then falls back to the stripped stdout
or, when that is empty, a message naming the exit code. -/
def errorFromParsed (errorData : JVal) (strippedStdout : String) (returncode : Int) : String :=
  match errorData with
  | .jobj fields =>
    match fields.lookupKey "error" with
    | some v => pyStr v
    | none => strippedStdout
  | .jarr items =>
    if items.containsStr "error" then
      pyOr strippedStdout ("Plugin exited with code " ++ toString returncode)
    else strippedStdout
  | .jstr s =>
    if strContainsSub s "error" then
      pyOr strippedStdout ("Plugin exited with code " ++ toString returncode)
    else strippedStdout
  | _ => pyOr strippedStdout ("Plugin exited with code " ++ toString returncode)

/-- The error message of the non-zero-exit branch (src/smcp.py lines 377-391):
empty stdout yields a synthesized message naming the exit code; otherwise the
stripped stdout is parsed as JSON and `errorFromParsed` applies; a parse
failure falls back to the stripped stdout or, when that strips to empty, the
exit-code message. -/
def nonzeroExitErrorMsg (returncode : Int) (stdout : String) : String :=
  if stdout = "" then "Plugin exited with code " ++ toString returncode ++ " (no output)"
  else
    match json_loads (pyStrip stdout) with
    | some errorData => errorFromParsed errorData (pyStrip stdout) returncode
    | none => pyOr (pyStrip stdout) ("Plugin exited with code " ++ toString returncode)

/-- The subprocess timeout of `execute_plugin_tool` (src/smcp.py line 281). -/
def timeoutSeconds : Nat := 300

/-- Embedding of `execute_plugin_tool` (src/smcp.py lines 237-398).

The timeout branch (lines 339-371) kills the process, waits up to five
seconds for it, and then tries to salvage partial output; but line 352 reads
the local variable `stderr`, which is unassigned when `asyncio.wait_for`
raised at line 335, so whenever the salvaged `partial_stdout` is non-empty
that branch raises `UnboundLocalError`, the bare `except:` at line 358
swallows it, and line 360 re-raises the `TimeoutError`; with empty or no
partial output the same `raise` is reached directly.  Every timeout therefore
lands in the outer handler (lines 361-371) and returns the generic
`"Plugin command timed out after 300 seconds"` message, the buffered partial
output never reaching the result. -/
def execute_plugin_tool (world : SpawnOutcome) (toolName : String)
    (arguments : List (String × PyVal)) (registry : List (String × String)) : ExecEffect :=
  match parseToolName toolName with
  | none =>
    { result := "Invalid tool name format: " ++ toolName ++
        ". Expected 'plugin__command' or 'plugin.command'"
      spawned := [], dSuccess := 0, dError := 0 }
  | some (pluginName, command) =>
    match dictLookup registry pluginName with
    | none =>
      { result := "Plugin '" ++ pluginName ++ "' not found"
        spawned := [], dSuccess := 0, dError := 0 }
    | some cliPath =>
      let cmdArgs := pythonExecutable :: cliPath :: command :: buildCliArgs arguments
      match world with
      | .timedOut _ _ =>
        { result := "Plugin command timed out after " ++ toString timeoutSeconds ++ " seconds"
          spawned := [cmdArgs], dSuccess := 0, dError := 1 }
      | .completed rc stdout _ =>
        if rc = 0 then
          { result := pyStrip stdout, spawned := [cmdArgs], dSuccess := 1, dError := 0 }
        else
          { result := "Error: " ++ nonzeroExitErrorMsg rc stdout
            spawned := [cmdArgs], dSuccess := 0, dError := 1 }

/-- What the `--describe` subprocess of `get_plugin_describe` did:
`subprocess.run` completed with an exit status and captured streams, timed out
(`subprocess.TimeoutExpired`), or raised some other exception. -/
inductive SubprocRun where
  | completed (returncode : Int) (stdout : String) (stderrData : String)
  | timedOut
  | raisedExc

/-- The structure validation of `get_plugin_describe` (src/smcp.py line 191):
`"commands" in spec and isinstance(spec["commands"], list)`.  On a non-dict
parse result Python's `in` either raises `TypeError` (numbers, booleans,
`None`) or, for lists and strings, membership may hold but the `spec[...]`
string indexing raises; the enclosing `except Exception` turns each of those
into `None`, so only a dict whose `"commands"` member is a list validates. -/
def hasCommandsList : JVal → Bool
  | .jobj fields =>
    match fields.lookupKey "commands" with
    | some (.jarr _) => true
    | _ => false
  | _ => false

/-- Embedding of `get_plugin_describe` (src/smcp.py lines 150-207): the parsed
spec exactly when the describe subprocess exits 0, its stripped stdout parses
as JSON, and the parsed value is a dict with a list-valued `"commands"`
member; `None` on non-zero exit, parse failure, invalid structure, timeout or
any other exception. -/
def get_plugin_describe (run : SubprocRun) : Option JVal :=
  match run with
  | .completed rc stdout _ =>
    if rc = 0 then
      match json_loads (pyStrip stdout) with
      | some spec => if hasCommandsList spec then some spec else none
      | none => none
    else none
  | .timedOut => none
  | .raisedExc => none

/-- The reserved first tokens excluded inside the commands section of help
text (src/smcp.py line 231). -/
def reservedTokens : List String := ["usage:", "options:", "Available", "Examples:"]

/-- One loop iteration of `parse_commands_from_help` (src/smcp.py lines
220-232) on state (in-commands-section flag, commands collected so far). -/
def helpStep (st : Bool × List String) (line : String) : Bool × List String :=
  if pyStartsWith (pyStrip line) "Available commands:" then (true, st.2)
  else if st.1 then
    if pyStrip line = "" || pyStartsWith (pyStrip line) "Examples" then (false, st.2)
    else if pyStartsWith line "  " then
      match pySplitWs (pyStrip line) with
      | [] => st
      | t :: _ => if t ∈ reservedTokens then st else (st.1, st.2 ++ [t])
    else st
  else st

/-- Embedding of `parse_commands_from_help` (src/smcp.py lines 210-234). -/
def parse_commands_from_help (helpText : String) : List String :=
  ((pySplitLines helpText).foldl helpStep (false, [])).2

/-- One entry of the plugins directory as `discover_plugins` inspects it:
its name, whether it is a directory, and whether it contains a `cli.py`. -/
structure DirEntry where
  entryName : String
  isDirectory : Bool
  hasCliPy : Bool
deriving Repr, DecidableEq

/-- Embedding of `discover_plugins` (src/smcp.py lines 96-127) over the
directory listing: `none` models a non-existent plugins directory (early
return of the empty dict at line 109, before the metric assignment, so the
metric update is `none` there); otherwise every immediate subdirectory with a
`cli.py` contributes one registry entry `name ↦ path-to-cli.py` and
`metrics["plugins_discovered"]` is set to the number of entries.  Filesystem
directory listings have pairwise-distinct names, which theorems assume where
they treat the result as a mapping. -/
def discover_plugins (pluginsDir : Option (List DirEntry)) (dirPath : String) :
    List (String × String) × Option Nat :=
  match pluginsDir with
  | none => ([], none)
  | some entries =>
    let plugins := entries.filterMap fun e =>
      if e.isDirectory && e.hasCliPy then
        some (e.entryName, dirPath ++ "/" ++ e.entryName ++ "/cli.py")
      else none
    (plugins, some plugins.length)

/-- Python truthiness of a value `json.loads` produced (`if x:`). -/
def pyTruthy : JVal → Bool
  | .jnull => false
  | .jbool b => b
  | .jnum n => n != 0
  | .jstr s => s != ""
  | .jarr .nil => false
  | .jarr _ => true
  | .jobj .nil => false
  | .jobj _ => true

/-- Python `x is not None` on an optional JSON value (a JSON `null` parses to
Python `None`, so it too fails the check). -/
def isNotNone : JVal → Bool
  | .jnull => false
  | _ => true

/-- The members of a parsed JSON value when it is a dict.  `.get` on a
non-dict raises `AttributeError` in Python, which propagates out of
`register_plugin_tools`; modelled as an empty dict, a case no theorem below
relies on. -/
def asFields : JVal → JFields
  | .jobj m => m
  | _ => .nil

/-- Python iteration over a parsed JSON value (`for x in v`): a list yields
its elements, a dict its keys, a string its characters; iterating any other
value raises `TypeError` in Python (propagating out of registration),
modelled as the empty iteration, a case no theorem below relies on. -/
def jvalIterList : JVal → List JVal
  | .jarr items => items.toList
  | .jobj m => jfieldKeys m
  | .jstr s => s.data.map fun c => .jstr (String.mk [c])
  | _ => []
where
  /-- The keys of a dict, as iteration yields them. -/
  jfieldKeys : JFields → List JVal
    | .nil => []
    | .cons k _ tl => .jstr k :: jfieldKeys tl

/-- Python `str.lower()` (ASCII as used for parameter type names). -/
def pyLower (s : String) : String := String.mk (s.data.map Char.toLower)

/-- The `json_type_map.get(param_type.lower(), "string")` lookup of
`parameter_spec_to_json_schema` (src/smcp.py lines 423-432). -/
def jsonTypeOf (paramType : String) : String :=
  if pyLower paramType ∈ ["string", "number", "integer", "boolean", "array", "object"] then
    pyLower paramType
  else "string"

/-- The string extracted from a parameter field that Python reads with a
string default and then uses as text (`param.get("name", "")` as a dict key,
`param.get("type", "string")` before `.lower()`).  A non-string value would
make Python use the object itself (as a key) or raise on `.lower()`;
modelled by its `str()` form, a case no theorem below relies on. -/
def fieldStr (fields : JFields) (key : String) (dflt : String) : String :=
  match fields.lookupKey key with
  | some v => pyStr v
  | none => dflt

/-- The property schema `parameter_spec_to_json_schema` builds for one
parameter spec (src/smcp.py lines 415-450): `{"type": t}`, then the
description when truthy, the default when not `None`, and the
string-items schema for arrays. -/
def paramPropSchema (param : JVal) : String × JVal × Bool :=
  let fields := asFields param
  let paramName := fieldStr fields "name" ""
  let jsonType := jsonTypeOf (fieldStr fields "type" "string")
  let paramDesc := (fields.lookupKey "description").getD (.jstr "")
  let paramRequired := pyTruthy ((fields.lookupKey "required").getD (.jbool false))
  let paramDefault := (fields.lookupKey "default").getD .jnull
  let propMembers :=
    [("type", JVal.jstr jsonType)] ++
    (if pyTruthy paramDesc then [("description", paramDesc)] else []) ++
    (if isNotNone paramDefault then [("default", paramDefault)] else []) ++
    (if jsonType = "array" then
      [("items", JVal.jobj (toFields [("type", JVal.jstr "string")]))] else [])
  (paramName, JVal.jobj (toFields propMembers), paramRequired)

/-- Embedding of `parameter_spec_to_json_schema` (src/smcp.py lines 401-459):
fold the parameter specs into the `properties` dict (insertion order, repeated
names overwriting) and the `required` name list, and wrap them in the
object schema with `additionalProperties: false`. -/
def parameter_spec_to_json_schema (parameters : List JVal) : JVal :=
  let step := fun (acc : JFields × List String) (param : JVal) =>
    let (paramName, propSchema, paramRequired) := paramPropSchema param
    (acc.1.setKey paramName propSchema,
     acc.2 ++ if paramRequired then [paramName] else [])
  let built := parameters.foldl step (.nil, [])
  .jobj (toFields
    [("type", .jstr "object"),
     ("properties", .jobj built.1),
     ("required", .jarr (toItems (built.2.map JVal.jstr))),
     ("additionalProperties", .jbool false)])

/-- The empty-object input schema of the fallback tier
(src/smcp.py lines 491-496). -/
def emptyInputSchema : JVal :=
  .jobj (toFields
    [("type", .jstr "object"),
     ("properties", .jobj .nil),
     ("required", .jarr .nil),
     ("additionalProperties", .jbool false)])

/-- An MCP tool as `create_tool_from_plugin` constructs it.  The description
is kept as the JSON value `command_spec.get(...)` returned (the source passes
it to the `Tool` constructor unconverted). -/
structure MTool where
  toolName : String
  description : JVal
  inputSchema : JVal

/-- Embedding of `create_tool_from_plugin` (src/smcp.py lines 462-502): the
tool name is `plugin__command`; with a command spec the description is the
spec's `description` member when the key is present (the `.get` default fires
only on a missing key) and the schema is built from its `parameters` member
(missing key defaulting to the empty list); without a spec both are the
synthesized fallbacks. -/
def create_tool_from_plugin (pluginName command : String)
    (commandSpec : Option JFields) : MTool :=
  let toolName := pluginName ++ "__" ++ command
  match commandSpec with
  | some spec =>
    { toolName := toolName
      description := (spec.lookupKey "description").getD
        (.jstr ("Execute " ++ pluginName ++ " " ++ command ++ " command"))
      inputSchema := parameter_spec_to_json_schema
        (jvalIterList ((spec.lookupKey "parameters").getD (.jarr .nil))) }
  | none =>
    { toolName := toolName
      description := .jstr ("Execute " ++ pluginName ++ " " ++ command ++ " command")
      inputSchema := emptyInputSchema }

/-- The per-command step of the describe tier of `register_plugin_tools`
(src/smcp.py lines 533-550): skip a command spec with a missing or falsy
`name`, skip a command literally named `connect` or `disconnect` (Python's
`in ["connect", "disconnect"]` compares by equality, which no non-string
value satisfies), otherwise create the tool from the spec. -/
def toolForCommandSpec (pluginName : String) (commandSpec : JVal) : Option MTool :=
  let fields := asFields commandSpec
  match fields.lookupKey "name" with
  | none => none
  | some nameVal =>
    if pyTruthy nameVal = false then none
    else
      let isConnect := match nameVal with
        | .jstr s => s = "connect" || s = "disconnect"
        | _ => false
      if isConnect then none
      else some (create_tool_from_plugin pluginName (pyStr nameVal) (some fields))

/-- What the two discovery subprocess calls returned for one plugin:
`get_plugin_describe`'s result and, for the fallback tier, the help text
`get_plugin_help` returned (its own failure modes yield `""`). -/
structure PluginWorld where
  describeSpec : Option JVal
  helpText : String

/-- The tools `register_plugin_tools` (src/smcp.py lines 522-568) creates for
one plugin: when `--describe` produced a (truthy) spec, the describe tier maps
`toolForCommandSpec` over the spec's `commands`; otherwise the fallback tier
creates one spec-less tool per command scraped from the help text, with no
name filtering of any kind. -/
def register_plugin_tools_for (pluginName : String) (w : PluginWorld) : List MTool :=
  match w.describeSpec with
  | some spec =>
    if pyTruthy spec then
      let commands := jvalIterList ((asFields spec).lookupKey "commands" |>.getD (.jarr .nil))
      commands.filterMap (toolForCommandSpec pluginName)
    else
      (parse_commands_from_help w.helpText).map fun c =>
        create_tool_from_plugin pluginName c none
  | none =>
    (parse_commands_from_help w.helpText).map fun c =>
      create_tool_from_plugin pluginName c none

/- ## Metrics and the tool-call handler -/

/-- The tool-call counters of the module-level `metrics` dict
(src/smcp.py lines 47-49), all zero at startup. -/
structure Metrics where
  toolCallsTotal : Nat
  toolCallsSuccess : Nat
  toolCallsError : Nat
deriving Repr, DecidableEq

/-- The counters at startup. -/
def initialMetrics : Metrics := ⟨0, 0, 0⟩

/-- Everything one tool call depends on: the subprocess behaviour and the
handler's arguments, with the registry in force. -/
structure CallInput where
  world : SpawnOutcome
  toolName : String
  arguments : List (String × PyVal)
  registry : List (String × String)

/-- Embedding of `call_tool_handler` (src/smcp.py lines 579-594): increment
`tool_calls_total`, run `execute_plugin_tool` and apply its counter
increments, return its result text.  The handler's own `except` branch
(one more error increment) is unreachable, because `execute_plugin_tool`
catches every exception internally and returns a string. -/
def call_tool_handler (m : Metrics) (c : CallInput) : Metrics × String :=
  let m1 : Metrics := { m with toolCallsTotal := m.toolCallsTotal + 1 }
  let eff := execute_plugin_tool c.world c.toolName c.arguments c.registry
  ({ m1 with
      toolCallsSuccess := m1.toolCallsSuccess + eff.dSuccess
      toolCallsError := m1.toolCallsError + eff.dError }, eff.result)

/-- The counters after a sequence of handled tool calls, from startup. -/
def runCalls (calls : List CallInput) : Metrics :=
  calls.foldl (fun m c => (call_tool_handler m c).1) initialMetrics

/- ## Theorems -/

/-- C2: the claim says a timed-out tool call returns an error that includes
the buffered partial stdout/stderr previews.  The code cannot do this: its
salvage branch reads the unassigned local `stderr` (src/smcp.py line 352),
the resulting `UnboundLocalError` is swallowed by the bare `except:` and the
re-raised timeout lands in the generic handler.  Evaluating the embedding at
a timed-out call with partial output buffered on both streams: the process is
recorded as spawned, the error counter is incremented, and the result is the
generic timeout message containing neither stream's content. -/
theorem exec_timeout_partial_output_dropped :
    (execute_plugin_tool (.timedOut (some "partial stdout text") "buffered stderr text")
        "demo__task" [] [("demo", "/plugins/demo/cli.py")]).result =
      "Plugin command timed out after 300 seconds" ∧
    (execute_plugin_tool (.timedOut (some "partial stdout text") "buffered stderr text")
        "demo__task" [] [("demo", "/plugins/demo/cli.py")]).dError = 1 ∧
    (execute_plugin_tool (.timedOut (some "partial stdout text") "buffered stderr text")
        "demo__task" [] [("demo", "/plugins/demo/cli.py")]).spawned =
      [[pythonExecutable, "/plugins/demo/cli.py", "task"]] ∧
    strContainsSub (execute_plugin_tool (.timedOut (some "partial stdout text")
        "buffered stderr text") "demo__task" [] [("demo", "/plugins/demo/cli.py")]).result
      "partial" = false ∧
    strContainsSub (execute_plugin_tool (.timedOut (some "partial stdout text")
        "buffered stderr text") "demo__task" [] [("demo", "/plugins/demo/cli.py")]).result
      "buffered" = false :=
  ⟨rfl, rfl, rfl, rfl, rfl⟩

/-- C4 counterexample: a tool name with neither delimiter yields the invalid
format error with zero spawns, but the error counter is NOT incremented
(`execute_plugin_tool` returns at src/smcp.py line 252 without touching
`metrics`), contradicting the claim that the call is counted as an error. -/
theorem invalid_name_error_not_counted_cex :
    (execute_plugin_tool (.completed 0 "" "") "nodelimiter" [] []).dError = 0 ∧
    (execute_plugin_tool (.completed 0 "" "") "nodelimiter" [] []).dSuccess = 0 ∧
    (execute_plugin_tool (.completed 0 "" "") "nodelimiter" [] []).spawned = [] ∧
    strContainsSub (execute_plugin_tool (.completed 0 "" "") "nodelimiter" [] []).result
      "Invalid tool name format" = true :=
  ⟨rfl, rfl, rfl, rfl⟩

/-- C4 as amended: for every tool name containing neither `"__"` nor `"."`,
`execute_plugin_tool` returns synchronously the invalid-format error result,
spawns no subprocess, and increments neither the error counter nor the
success counter (only the handler's total-calls counter counts the call). -/
theorem invalid_name_amended (toolName : String) (arguments : List (String × PyVal))
    (registry : List (String × String)) (world : SpawnOutcome)
    (h1 : strContainsSub toolName "__" = false)
    (h2 : strContainsSub toolName "." = false) :
    execute_plugin_tool world toolName arguments registry =
      { result := "Invalid tool name format: " ++ toolName ++
          ". Expected 'plugin__command' or 'plugin.command'"
        spawned := [], dSuccess := 0, dError := 0 } := by
  simp [execute_plugin_tool, parseToolName, h1, h2]

/-- C4 witness: the amended theorem applied at the concrete delimiter-free
tool name. -/
theorem invalid_name_amended_witness :
    execute_plugin_tool (.completed 0 "" "") "nodelimiter" [] [] =
      { result := "Invalid tool name format: nodelimiter. " ++
          "Expected 'plugin__command' or 'plugin.command'"
        spawned := [], dSuccess := 0, dError := 0 } :=
  invalid_name_amended "nodelimiter" [] [] (.completed 0 "" "") rfl rfl

/-- C5: argument marshaling.  Per key/value pair the key's underscores become
hyphens; boolean true becomes the single bare flag token, boolean false
contributes no tokens, and every other value becomes exactly the flag token
and the stringified value; the key `use_ssl` becomes the flag `--use-ssl`;
and the full command-line tail is the concatenation of the per-pair tokens
in order. -/
theorem marshal_arguments_spec :
    (∀ k, marshalArg k (.pybool true) = ["--" ++ pyReplaceChar k '_' '-']) ∧
    (∀ k, marshalArg k (.pybool false) = []) ∧
    (∀ k s, marshalArg k (.pystr s) = ["--" ++ pyReplaceChar k '_' '-', s]) ∧
    (∀ k n, marshalArg k (.pyint n) = ["--" ++ pyReplaceChar k '_' '-', toString n]) ∧
    marshalArg "use_ssl" (.pybool true) = ["--use-ssl"] ∧
    marshalArg "use_ssl" (.pybool false) = [] ∧
    (∀ arguments, buildCliArgs arguments = arguments.flatMap fun kv => marshalArg kv.1 kv.2) :=
  ⟨fun _ => rfl, fun _ => rfl, fun _ _ => rfl, fun _ _ => rfl, rfl, rfl, fun _ => rfl⟩

/-- C9 counterexample: a describe-tier command spec whose `description` is
present as the empty string keeps that empty string as the tool description;
the `.get` default (the synthesized phrase) fires only on a missing key, so
the claimed substitution does not happen. -/
theorem empty_description_kept_cex :
    (create_tool_from_plugin "p" "c"
        (some (.cons "description" (.jstr "") .nil))).description = .jstr "" ∧
    JVal.jstr "" ≠ JVal.jstr "Execute p c command" :=
  ⟨rfl, by simp⟩

/-- C9 as amended: `create_tool_from_plugin` uses the synthesized default
description `Execute <plugin> <command> command` exactly when the command
spec has no `description` key (or no spec is given); a present value — the
empty string included — is kept verbatim. -/
theorem description_default_amended (pluginName command : String) (fields : JFields) :
    (fields.lookupKey "description" = none →
      (create_tool_from_plugin pluginName command (some fields)).description =
        .jstr ("Execute " ++ pluginName ++ " " ++ command ++ " command")) ∧
    (∀ d, fields.lookupKey "description" = some d →
      (create_tool_from_plugin pluginName command (some fields)).description = d) ∧
    (create_tool_from_plugin pluginName command none).description =
      .jstr ("Execute " ++ pluginName ++ " " ++ command ++ " command") := by
  refine ⟨fun h => ?_, fun d h => ?_, rfl⟩ <;> simp [create_tool_from_plugin, h]

/-- Helper: filtering through an if-guarded `filterMap` is filtering then
mapping. -/
theorem filterMap_guard_eq_map_filter {α β : Type} (p : α → Bool) (g : α → β)
    (l : List α) :
    l.filterMap (fun e => if p e then some (g e) else none) = (l.filter p).map g := by
  induction l with
  | nil => rfl
  | cons e es ih =>
    by_cases h : p e = true
    · simp [h, ih]
    · simp [h, ih]

/-- Helper: the registry `discover_plugins` builds over an existing directory
is exactly the valid entries (directories containing `cli.py`), in listing
order, each mapped to its `cli.py` path. -/
theorem discover_plugins_entries (entries : List DirEntry) (dirPath : String) :
    (discover_plugins (some entries) dirPath).1 =
      (entries.filter fun e => e.isDirectory && e.hasCliPy).map
        (fun e => (e.entryName, dirPath ++ "/" ++ e.entryName ++ "/cli.py")) := by
  simp only [discover_plugins]
  exact filterMap_guard_eq_map_filter (fun e => e.isDirectory && e.hasCliPy)
    (fun e => (e.entryName, dirPath ++ "/" ++ e.entryName ++ "/cli.py")) entries

/-- C6: over a plugins root listing, discovery returns one descriptor per
immediate subdirectory that has a `cli.py` (keyed by the subdirectory name,
mapped to that entry point), silently contributes nothing for every other
entry, and sets the plugins-discovered metric to that count; a nonexistent
root yields the empty mapping with no metric write and no exception. -/
theorem discover_plugins_spec :
    (∀ entries dirPath,
      ((discover_plugins (some entries) dirPath).1.map Prod.fst =
        ((entries.filter fun e => e.isDirectory && e.hasCliPy).map (·.entryName))) ∧
      ((discover_plugins (some entries) dirPath).1.length =
        (entries.filter fun e => e.isDirectory && e.hasCliPy).length) ∧
      ((discover_plugins (some entries) dirPath).2 =
        some (entries.filter fun e => e.isDirectory && e.hasCliPy).length)) ∧
    (∀ dirPath, discover_plugins none dirPath = ([], none)) := by
  refine ⟨fun entries dirPath => ?_, fun _ => rfl⟩
  have h := discover_plugins_entries entries dirPath
  have h2 : (discover_plugins (some entries) dirPath).2 =
      some (discover_plugins (some entries) dirPath).1.length := rfl
  refine ⟨?_, ?_, ?_⟩
  · rw [h]; simp [List.map_map]
  · rw [h]; simp
  · rw [h2, h]; simp

/-- C7: on the given help text the fallback parser yields exactly
`["foo", "bar"]` (in particular never `"baz"`, which follows the `Examples:`
header); and on any help text, a line whose first whitespace-delimited token
after stripping is one of the reserved tokens contributes no command in any
parser state. -/
theorem parse_help_spec :
    parse_commands_from_help
        "Available commands:\n  foo   does foo\n  bar   does bar\n\nExamples:\n  baz\n" =
      ["foo", "bar"] ∧
    (∀ st line t rest, pySplitWs (pyStrip line) = t :: rest → t ∈ reservedTokens →
      (helpStep st line).2 = st.2) := by
  refine ⟨rfl, fun st line t rest hsplit hres => ?_⟩
  unfold helpStep
  split_ifs <;> try rfl
  rw [hsplit]
  simp [hres]

/-- C8 counterexample: a plugin discovered through the help-scraping fallback
tier whose help text lists a command literally named `connect` gets a
`<plugin>__connect` tool registered — the connect/disconnect filter exists
only in the describe tier (src/smcp.py lines 540-543), not in the fallback
loop (lines 562-568). -/
theorem fallback_registers_connect_cex :
    ((register_plugin_tools_for "imap"
        ⟨none, "Available commands:\n  connect   open connection\n  fetch   fetch mail\n"⟩).map
      (·.toolName)) = ["imap__connect", "imap__fetch"] := rfl

/-- C8 as amended: commands literally named `connect` or `disconnect` are
dropped during registration in the structured describe tier — the per-command
step yields no tool for them, and the describe tier is exactly that step
mapped over the spec's commands; the help-scraping fallback tier applies no
such filter and registers every scraped command name as a tool. -/
theorem connect_filter_amended :
    (∀ pluginName commandSpec s,
      (asFields commandSpec).lookupKey "name" = some (.jstr s) →
      (s = "connect" ∨ s = "disconnect") →
      toolForCommandSpec pluginName commandSpec = none) ∧
    (∀ pluginName spec helpText, pyTruthy spec = true →
      register_plugin_tools_for pluginName ⟨some spec, helpText⟩ =
        (jvalIterList (((asFields spec).lookupKey "commands").getD (.jarr .nil))).filterMap
          (toolForCommandSpec pluginName)) ∧
    (∀ pluginName helpText,
      (register_plugin_tools_for pluginName ⟨none, helpText⟩).map (·.toolName) =
        (parse_commands_from_help helpText).map fun c => pluginName ++ "__" ++ c) := by
  refine ⟨fun pluginName commandSpec s hname hcon => ?_,
          fun pluginName spec helpText ht => ?_,
          fun pluginName helpText => ?_⟩
  · rcases hcon with rfl | rfl <;> simp [toolForCommandSpec, hname, pyTruthy]
  · simp [register_plugin_tools_for, ht]
  · simp only [register_plugin_tools_for, List.map_map]
    rfl

/-- C1: result classification of a completed tool subprocess.  Exit status
zero yields the stripped stdout as the success result with the success
counter incremented by exactly one; a non-zero exit yields an error result
whose message is the `error` field when the stripped stdout parses as a JSON
object containing one, the stripped stdout when it parses without one or
fails to parse (and is non-empty when stripped), and the synthesized
exit-code message when stdout is empty — with the error counter incremented
by exactly one in every non-zero-exit branch. -/
theorem exec_classify_result (rc : Int) (stdout stderrData : String)
    (toolName : String) (arguments : List (String × PyVal))
    (registry : List (String × String)) (pluginName command cliPath : String)
    (hparse : parseToolName toolName = some (pluginName, command))
    (hreg : dictLookup registry pluginName = some cliPath) :
    (rc = 0 →
      (execute_plugin_tool (.completed rc stdout stderrData) toolName arguments
          registry).result = pyStrip stdout ∧
      (execute_plugin_tool (.completed rc stdout stderrData) toolName arguments
          registry).dSuccess = 1 ∧
      (execute_plugin_tool (.completed rc stdout stderrData) toolName arguments
          registry).dError = 0) ∧
    (rc ≠ 0 →
      (execute_plugin_tool (.completed rc stdout stderrData) toolName arguments
          registry).dSuccess = 0 ∧
      (execute_plugin_tool (.completed rc stdout stderrData) toolName arguments
          registry).dError = 1 ∧
      (∀ fields v, stdout ≠ "" →
        json_loads (pyStrip stdout) = some (.jobj fields) →
        fields.lookupKey "error" = some v →
        (execute_plugin_tool (.completed rc stdout stderrData) toolName arguments
            registry).result = "Error: " ++ pyStr v) ∧
      (∀ fields, stdout ≠ "" →
        json_loads (pyStrip stdout) = some (.jobj fields) →
        fields.lookupKey "error" = none →
        (execute_plugin_tool (.completed rc stdout stderrData) toolName arguments
            registry).result = "Error: " ++ pyStrip stdout) ∧
      (stdout ≠ "" → json_loads (pyStrip stdout) = none → pyStrip stdout ≠ "" →
        (execute_plugin_tool (.completed rc stdout stderrData) toolName arguments
            registry).result = "Error: " ++ pyStrip stdout) ∧
      (stdout = "" →
        (execute_plugin_tool (.completed rc stdout stderrData) toolName arguments
            registry).result =
          "Error: " ++ ("Plugin exited with code " ++ toString rc ++ " (no output)"))) := by
  constructor
  · intro hrc
    simp [execute_plugin_tool, hparse, hreg, hrc]
  · intro hrc
    have he : execute_plugin_tool (.completed rc stdout stderrData) toolName arguments
        registry =
        { result := "Error: " ++ nonzeroExitErrorMsg rc stdout
          spawned := [pythonExecutable :: cliPath :: command :: buildCliArgs arguments]
          dSuccess := 0, dError := 1 } := by
      simp [execute_plugin_tool, hparse, hreg, hrc]
    rw [he]
    refine ⟨rfl, rfl, ?_, ?_, ?_, ?_⟩
    · intro fields v hne hj hk
      show "Error: " ++ nonzeroExitErrorMsg rc stdout = _
      simp [nonzeroExitErrorMsg, hne, hj, errorFromParsed, hk]
    · intro fields hne hj hk
      show "Error: " ++ nonzeroExitErrorMsg rc stdout = _
      simp [nonzeroExitErrorMsg, hne, hj, errorFromParsed, hk]
    · intro hne hj hps
      show "Error: " ++ nonzeroExitErrorMsg rc stdout = _
      simp [nonzeroExitErrorMsg, hne, hj, pyOr, hps]
    · intro h0
      show "Error: " ++ nonzeroExitErrorMsg rc stdout = _
      simp [nonzeroExitErrorMsg, h0]

/-- C1 witness: the classification theorem applied at a zero-exit call with
trailing-newline stdout and at an exit-1 call whose stdout is a JSON object
with an `error` field. -/
theorem exec_classify_result_witness :
    ((execute_plugin_tool (.completed 0 "Deployed myapp to staging\n" "")
        "deploy__run" [] [("deploy", "/plugins/deploy/cli.py")]).result =
      "Deployed myapp to staging" ∧
     (execute_plugin_tool (.completed 0 "Deployed myapp to staging\n" "")
        "deploy__run" [] [("deploy", "/plugins/deploy/cli.py")]).dSuccess = 1) ∧
    ((execute_plugin_tool (.completed 1 "\x7b\"error\": \"bad config\"\x7d" "")
        "deploy__run" [] [("deploy", "/plugins/deploy/cli.py")]).result =
      "Error: bad config" ∧
     (execute_plugin_tool (.completed 1 "\x7b\"error\": \"bad config\"\x7d" "")
        "deploy__run" [] [("deploy", "/plugins/deploy/cli.py")]).dError = 1) := by
  have h0 := exec_classify_result 0 "Deployed myapp to staging\n" "" "deploy__run" []
    [("deploy", "/plugins/deploy/cli.py")] "deploy" "run" "/plugins/deploy/cli.py" rfl rfl
  have h1 := exec_classify_result 1 "\x7b\"error\": \"bad config\"\x7d" "" "deploy__run" []
    [("deploy", "/plugins/deploy/cli.py")] "deploy" "run" "/plugins/deploy/cli.py" rfl rfl
  obtain ⟨hza, hzb, _⟩ := h0.1 rfl
  obtain ⟨_, hnb, hjson, _, _, _⟩ := h1.2 (by decide)
  have hres := hjson (.cons "error" (.jstr "bad config") .nil) (.jstr "bad config")
    (by decide) rfl rfl
  exact ⟨⟨hza, hzb⟩, hres, hnb⟩

/-- C3: `get_plugin_describe` returns the parsed spec exactly when the
describe subprocess completed with exit status zero, its stripped stdout
parsed as JSON, and the parsed value is an object with a list-valued
`commands` member; every other outcome (non-zero exit regardless of stdout,
parse failure, missing or non-list `commands`, timeout, other exception)
yields `none` — the embedding is a total function, so no exception reaches
the caller.  On the example describe output the full spec with its one
command named `x` is returned; on exit status one the result is `none`
whatever stdout holds. -/
theorem describe_success_iff :
    (∀ run spec, get_plugin_describe run = some spec ↔
      ∃ rc stdout stderrData, run = .completed rc stdout stderrData ∧ rc = 0 ∧
        json_loads (pyStrip stdout) = some spec ∧ hasCommandsList spec = true) ∧
    (get_plugin_describe
        (.completed 0 "\x7b\"commands\": [\x7b\"name\": \"x\", \"parameters\": []\x7d]\x7d" "") =
      some (.jobj (.cons "commands" (.jarr (.cons (.jobj (.cons "name" (.jstr "x")
        (.cons "parameters" (.jarr .nil) .nil))) .nil)) .nil))) ∧
    (∀ stdout stderrData, get_plugin_describe (.completed 1 stdout stderrData) = none) := by
  refine ⟨fun run spec => ?_, rfl, fun stdout stderrData => ?_⟩
  · constructor
    · intro h
      cases run with
      | completed rc out errData =>
        by_cases hrc : rc = 0
        · subst hrc
          cases hj : json_loads (pyStrip out) with
          | none => simp [get_plugin_describe, hj] at h
          | some v =>
            by_cases hc : hasCommandsList v = true
            · simp [get_plugin_describe, hj, hc] at h
              exact ⟨0, out, errData, rfl, rfl, by rw [hj, h], by rw [← h]; exact hc⟩
            · simp [get_plugin_describe, hj, hc] at h
        · simp [get_plugin_describe, hrc] at h
      | timedOut => simp [get_plugin_describe] at h
      | raisedExc => simp [get_plugin_describe] at h
    · rintro ⟨rc, out, errData, rfl, rfl, hj, hc⟩
      simp [get_plugin_describe, hj, hc]
  · simp [get_plugin_describe]

/-- Helper: one `execute_plugin_tool` call increments at most one of the two
outcome counters, by at most one, and never both. -/
theorem exec_delta (w : SpawnOutcome) (t : String) (a : List (String × PyVal))
    (r : List (String × String)) :
    ((execute_plugin_tool w t a r).dSuccess + (execute_plugin_tool w t a r).dError ≤ 1) ∧
    ((execute_plugin_tool w t a r).dSuccess = 0 ∨ (execute_plugin_tool w t a r).dError = 0) := by
  unfold execute_plugin_tool
  cases hp : parseToolName t with
  | none => simp
  | some pc =>
    obtain ⟨p, c⟩ := pc
    cases hr : dictLookup r p with
    | none => simp [hr]
    | some cliPath =>
      cases w with
      | timedOut ps bs => simp [hr]
      | completed rc out errData =>
        by_cases hrc : rc = 0 <;> simp [hr, hrc]

/-- Helper: the handler step preserves `success + error ≤ total`. -/
theorem call_tool_handler_preserves (m : Metrics) (c : CallInput)
    (h : m.toolCallsSuccess + m.toolCallsError ≤ m.toolCallsTotal) :
    (call_tool_handler m c).1.toolCallsSuccess + (call_tool_handler m c).1.toolCallsError ≤
      (call_tool_handler m c).1.toolCallsTotal := by
  have hd := (exec_delta c.world c.toolName c.arguments c.registry).1
  simp only [call_tool_handler]
  omega

/-- C10: metrics accounting of the tool-call handler.  Every handled call
increments `tool_calls_total` by exactly one and at most one of
`tool_calls_success` / `tool_calls_error`, by at most one; consequently
`success + error ≤ total` holds after every call sequence from the all-zero
startup counters; and the inequality is strict after, e.g., one
malformed-tool-name call and one unknown-plugin call, since neither result
branch increments either outcome counter. -/
theorem metrics_accounting_invariant :
    (∀ m c,
      ((call_tool_handler m c).1.toolCallsTotal = m.toolCallsTotal + 1) ∧
      ((call_tool_handler m c).1.toolCallsSuccess + (call_tool_handler m c).1.toolCallsError ≤
        m.toolCallsSuccess + m.toolCallsError + 1) ∧
      ((call_tool_handler m c).1.toolCallsSuccess = m.toolCallsSuccess ∨
       (call_tool_handler m c).1.toolCallsError = m.toolCallsError)) ∧
    (∀ calls, (runCalls calls).toolCallsSuccess + (runCalls calls).toolCallsError ≤
      (runCalls calls).toolCallsTotal) ∧
    ((runCalls [⟨.completed 0 "" "", "nodelimiter", [], []⟩,
                ⟨.completed 0 "" "", "ghost__cmd", [], []⟩]).toolCallsSuccess +
       (runCalls [⟨.completed 0 "" "", "nodelimiter", [], []⟩,
                  ⟨.completed 0 "" "", "ghost__cmd", [], []⟩]).toolCallsError <
     (runCalls [⟨.completed 0 "" "", "nodelimiter", [], []⟩,
                ⟨.completed 0 "" "", "ghost__cmd", [], []⟩]).toolCallsTotal) := by
  refine ⟨fun m c => ?_, fun calls => ?_, by decide⟩
  · have hd := exec_delta c.world c.toolName c.arguments c.registry
    refine ⟨rfl, ?_, ?_⟩
    · have := hd.1
      simp only [call_tool_handler]
      omega
    · rcases hd.2 with h | h <;> simp only [call_tool_handler] <;> [left; right] <;> omega
  · have : ∀ (cs : List CallInput) (m : Metrics),
        m.toolCallsSuccess + m.toolCallsError ≤ m.toolCallsTotal →
        (cs.foldl (fun m c => (call_tool_handler m c).1) m).toolCallsSuccess +
          (cs.foldl (fun m c => (call_tool_handler m c).1) m).toolCallsError ≤
        (cs.foldl (fun m c => (call_tool_handler m c).1) m).toolCallsTotal := by
      intro cs
      induction cs with
      | nil => intro m h; exact h
      | cons c cs ih =>
        intro m h
        exact ih _ (call_tool_handler_preserves m c h)
    exact this calls initialMetrics (by decide)
